import Mathlib

/-!
Verification of the per-frame game logic of `src/components/Game.tsx`
(a browser Flappy Bird clone) against its natural-language specification.

The game loop, the jump and reset handlers, and the high-score
initialization are shallowly embedded below.  JavaScript numbers are
modelled by `ℚ`: every quantity the game computes (positions, velocities,
pipe coordinates) is a small dyadic rational, exactly representable in
binary floating point, so rational arithmetic is faithful.  The random
value drawn by `Math.random()` is modelled as an explicit parameter
`rho` with `0 ≤ rho < 1`.  The value stored in `frameRef` at the end of
each animation callback is the browser-chosen `requestAnimationFrame`
request id; it is modelled as an explicit parameter `rid` of each tick.
The decorative cloud layer (lines 158-166 of the source) is read by no
physics, collision or scoring code and is omitted from the state.

React `setState` semantics: `setScore` uses a functional update, so
successive increments inside one tick chain correctly; the `highScore`
read inside the score callback is the closure value captured at the
start of the tick; `setGameOver(true)` takes effect only after the tick
finishes, so the scoring pass still runs on a collision tick.  The
embedding mirrors all three points.
-/

namespace Flappy

/-- Source line 23: `const GRAVITY = 0.5`. -/
def GRAVITY : ℚ := 1/2

/-- Source line 24: `const JUMP_FORCE = -8`. -/
def JUMP_FORCE : ℚ := -8

/-- Source line 25: `const PIPE_SPEED = 3`. -/
def PIPE_SPEED : ℚ := 3

/-- Source line 26: `const PIPE_WIDTH = 52`. -/
def PIPE_WIDTH : ℚ := 52

/-- Source line 27: `const PIPE_GAP = 150`. -/
def PIPE_GAP : ℚ := 150

/-- Source line 28: `const BIRD_WIDTH = 34`. -/
def BIRD_WIDTH : ℚ := 34

/-- Source line 29: `const BIRD_HEIGHT = 24`. -/
def BIRD_HEIGHT : ℚ := 24

/-- Canvas width, source line 309: `width={800}`. -/
def CANVAS_W : ℚ := 800

/-- Canvas height, source line 310: `height={500}`. -/
def CANVAS_H : ℚ := 500

/-- The bird's fixed horizontal reference position: the literal `50`
used in the collision test (lines 196-197), the scoring window
(line 207) and the draw call (line 260). -/
def BIRD_X : ℚ := 50

/-- Source lines 3-8: the `Bird` interface. -/
structure Bird where
  y : ℚ
  velocity : ℚ
  rotation : ℚ
  frame : ℕ
deriving DecidableEq

/-- Source lines 10-13: the `Pipe` interface. -/
structure Pipe where
  x : ℚ
  topHeight : ℚ
deriving DecidableEq

/-- The mutable state of the component: the two session flags, the two
scores, the persisted value behind the `flappyBirdHighScore` local
storage key (`none` models an absent key), the bird, the pipe list and
the `frameRef` counter.  The high score is an integer (`parseInt` can
produce negative values); the current score only ever counts up from
zero. -/
structure GameState where
  gameStarted : Bool
  gameOver : Bool
  score : ℕ
  highScore : ℤ
  stored : Option ℤ
  bird : Bird
  pipes : List Pipe
  frame : ℕ
deriving DecidableEq

/-- Source line 48: `{ y: 250, velocity: 0, rotation: 0, frame: 0 }`. -/
def birdInit : Bird := ⟨250, 0, 0, 0⟩

/-- Component state at mount: both flags false, score 0, the high score
and stored value as read from local storage, initial bird, no pipes,
`frameRef` 0. -/
def initState (hs : ℤ) (st : Option ℤ) : GameState :=
  ⟨false, false, 0, hs, st, birdInit, [], 0⟩

/-- Source lines 150-156: gravity is added to the velocity, the new
velocity is added to the position, the rotation grows by 2 and is
clamped at 70, the animation frame cycles modulo 3. -/
def birdStep (b : Bird) : Bird :=
  let v := b.velocity + GRAVITY
  let y := b.y + v
  let r0 := b.rotation + 2
  ⟨y, v, if r0 > 70 then 70 else r0, (b.frame + 1) % 3⟩

/-- Source line 170: `Math.random() * (canvas.height - PIPE_GAP - 100) + 50`. -/
def spawnHeight (rho : ℚ) : ℚ := rho * (CANVAS_H - PIPE_GAP - 100) + 50

/-- Source lines 168-172: on every tick whose incremented frame counter
is a multiple of 100, a pipe is pushed at the right canvas edge. -/
def pushPipes (frame1 : ℕ) (rho : ℚ) (ps : List Pipe) : List Pipe :=
  if frame1 % 100 = 0 then ps ++ [⟨CANVAS_W, spawnHeight rho⟩] else ps

/-- Source lines 174-180: pipes with `x > -PIPE_WIDTH` are kept and then
every kept pipe is shifted left by `PIPE_SPEED`. -/
def movePipes (ps : List Pipe) : List Pipe :=
  (ps.filter fun p => decide (p.x > -PIPE_WIDTH)).map
    fun p => ⟨p.x - PIPE_SPEED, p.topHeight⟩

/-- Source line 183: `bird.y < 0 || bird.y > canvas.height`. -/
def outOfBounds (y : ℚ) : Prop := y < 0 ∨ y > CANVAS_H

instance (y : ℚ) : Decidable (outOfBounds y) := by
  unfold outOfBounds; infer_instance

/-- Source lines 188-203: the literal per-pipe collision test run
against the updated bird position `y`. -/
def pipeHit (p : Pipe) (y : ℚ) : Prop :=
  (y < p.topHeight ∨ y > p.topHeight + PIPE_GAP) ∧
  (y + BIRD_HEIGHT > p.topHeight ∧ y < p.topHeight + PIPE_GAP + BIRD_HEIGHT ∧
   p.x < BIRD_WIDTH + BIRD_X ∧ p.x + PIPE_WIDTH > BIRD_X)

instance (p : Pipe) (y : ℚ) : Decidable (pipeHit p y) := by
  unfold pipeHit; infer_instance

/-- Source line 207: `pipe.x + PIPE_WIDTH < 50 && pipe.x + PIPE_WIDTH > 47`. -/
def scoreWin (x : ℚ) : Prop := x + PIPE_WIDTH < 50 ∧ x + PIPE_WIDTH > 47

instance (x : ℚ) : Decidable (scoreWin x) := by
  unfold scoreWin; infer_instance

/-- One pipe of the scoring pass, lines 207-217.  The accumulator is
(score, in-memory high score, stored high score); `hs0` is the
`highScore` closure value captured at the start of the tick, against
which line 210 compares. -/
def scoreStep (hs0 : ℤ) (acc : ℕ × ℤ × Option ℤ) (p : Pipe) : ℕ × ℤ × Option ℤ :=
  if scoreWin p.x then
    let newScore := acc.1 + 1
    if (newScore : ℤ) > hs0 then (newScore, (newScore : ℤ), some (newScore : ℤ))
    else (newScore, acc.2.1, acc.2.2)
  else acc

/-- Source lines 205-218: the scoring pass over the updated pipe list,
folding the (score, high score, stored high score) accumulator. -/
def scorePass (hs0 : ℤ) (ps : List Pipe) (acc : ℕ × ℤ × Option ℤ) :
    ℕ × ℤ × Option ℤ :=
  ps.foldl (scoreStep hs0) acc

/-- Number of pipes of a list inside the scoring window. -/
def countWin (ps : List Pipe) : ℕ :=
  (ps.filter fun p => decide (scoreWin p.x)).length

/-- Source lines 142-273, one invocation of `gameLoop`.  `rho` is the
value `Math.random()` would return on a spawning tick, `rid` the
request id returned by `requestAnimationFrame`, which the source
assigns to `frameRef.current` on both the idle path (line 144) and at
the end of a playing tick (line 272). -/
def tick (rho : ℚ) (rid : ℕ) (s : GameState) : GameState :=
  if s.gameStarted = false ∨ s.gameOver = true then { s with frame := rid }
  else
    let frame1 := s.frame + 1
    let b := birdStep s.bird
    let ps := movePipes (pushPipes frame1 rho s.pipes)
    let over := decide (outOfBounds b.y) || ps.any fun p => decide (pipeHit p b.y)
    let r := scorePass s.highScore ps (s.score, s.highScore, s.stored)
    { gameStarted := s.gameStarted, gameOver := over, score := r.1,
      highScore := r.2.1, stored := r.2.2, bird := b, pipes := ps, frame := rid }

/-- Source lines 90-103: the jump handler.  Both reads of `gameStarted`
and `gameOver` are the closure values from the current render, so the
second guard tests the state *before* any `setGameOver(false)` above. -/
def jump (s : GameState) : GameState :=
  let s1 := if s.gameStarted = false then
      { s with gameStarted := true, gameOver := false, score := 0,
               bird := birdInit, pipes := [] }
    else s
  if s.gameOver = false then
    { s1 with bird := { s1.bird with velocity := JUMP_FORCE, rotation := -20 } }
  else s1

/-- Source lines 105-111: the reset handler. -/
def resetGame (s : GameState) : GameState :=
  { s with gameStarted := false, gameOver := false, score := 0,
           bird := birdInit, pipes := [] }

/-- The session is in the Playing state. -/
def isPlaying (s : GameState) : Prop := s.gameStarted = true ∧ s.gameOver = false

instance (s : GameState) : Decidable (isPlaying s) := by
  unfold isPlaying; infer_instance

/-- The session is in the Idle state. -/
def isIdle (s : GameState) : Prop := s.gameStarted = false ∧ s.gameOver = false

instance (s : GameState) : Decidable (isIdle s) := by
  unfold isIdle; infer_instance

/-- Iterated ticks fed by streams of random draws and request ids. -/
def steps (rho : ℕ → ℚ) (rid : ℕ → ℕ) (s : GameState) : ℕ → GameState
  | 0 => s
  | k + 1 => tick (rho k) (rid k) (steps rho rid s k)

/-- One session event: an animation tick (with its random draw and
request id) or a jump input.  The reset action ends a session, so a
session trace is a list of these two events. -/
inductive Ev where
  | tick (rho : ℚ) (rid : ℕ)
  | flap
deriving DecidableEq

/-- A run of a session: the fold of its events, each either a tick or a
mid-session jump. -/
def runE (s : GameState) (l : List Ev) : GameState :=
  l.foldl
    (fun t e => match e with
      | Ev.tick rho rid => tick rho rid t
      | Ev.flap => jump t) s

/-- States reachable from a freshly mounted component by any
interleaving of ticks (with an admissible `Math.random()` draw), jumps
and resets. -/
inductive Reachable : GameState → Prop
  | init (hs : ℤ) (st : Option ℤ) : Reachable (initState hs st)
  | step (rho : ℚ) (rid : ℕ) (s : GameState) :
      Reachable s → 0 ≤ rho → rho < 1 → Reachable (tick rho rid s)
  | flap (s : GameState) : Reachable s → Reachable (jump s)
  | reset (s : GameState) : Reachable s → Reachable (resetGame s)

/-! ### Definitions taken from the specification's wording, for comparison -/

/-- Collision with one pipe as the specification words it: the bird's
vertical extent `[y, y + BIRD_HEIGHT]` does not lie inside the pipe's
gap band (it sticks out above the top segment's lower edge or below the
gap) while the bird's horizontal extent `[BIRD_X, BIRD_X + BIRD_WIDTH]`
overlaps the pipe's horizontal extent `[x, x + PIPE_WIDTH]`. -/
def specPipeCollision (p : Pipe) (y : ℚ) : Prop :=
  (y < p.topHeight ∨ y + BIRD_HEIGHT > p.topHeight + PIPE_GAP) ∧
  (p.x < BIRD_WIDTH + BIRD_X ∧ p.x + PIPE_WIDTH > BIRD_X)

instance (p : Pipe) (y : ℚ) : Decidable (specPipeCollision p y) := by
  unfold specPipeCollision; infer_instance

/-- What the code actually detects: the bird's rectangle straddles the
lower edge of the top segment, or its top edge lies within
`BIRD_HEIGHT` below the gap's lower edge, while overlapping the pipe
horizontally. -/
def straddleHit (p : Pipe) (y : ℚ) : Prop :=
  ((p.topHeight - BIRD_HEIGHT < y ∧ y < p.topHeight) ∨
   (p.topHeight + PIPE_GAP < y ∧ y < p.topHeight + PIPE_GAP + BIRD_HEIGHT)) ∧
  (p.x < BIRD_WIDTH + BIRD_X ∧ p.x + PIPE_WIDTH > BIRD_X)

/-- The collision condition of a playing tick, evaluated on the updated
bird and pipes (the code checks collisions after moving both). -/
def collisionNow (rho : ℚ) (s : GameState) : Prop :=
  outOfBounds (birdStep s.bird).y ∨
  ∃ p ∈ movePipes (pushPipes (s.frame + 1) rho s.pipes), pipeHit p (birdStep s.bird).y

/-- The x coordinate of a spawned pipe after the move of its spawn tick
and `k` further playing ticks: it is pushed at `CANVAS_W` and shifted
left by `PIPE_SPEED` on the spawn tick itself and on each later tick. -/
def pipeX (k : ℕ) : ℚ := CANVAS_W - PIPE_SPEED * ((k : ℚ) + 1)

/-- Bird height above the canvas top after `k` ticks of the no-input
session: `250 + JUMP_FORCE * k + (k * (k + 1) / 4)` (the running sum of
the velocities `JUMP_FORCE + i * GRAVITY`). -/
def fallY (k : ℕ) : ℚ := 250 + JUMP_FORCE * (k : ℚ) + ((k : ℚ) * ((k : ℚ) + 1)) / 4

/-- The no-input session: the jump that starts the game from a fresh
mount, followed by ticks only. -/
def freeFallStart : GameState := jump (initState 0 none)

/-! ### The high-score initialization (source lines 36-39)

`localStorage.getItem` and `parseInt` are browser builtins, so they are
modelled from their documented semantics rather than from `src/`.  A
JavaScript number that is `NaN` is modelled as `none`. -/

/-- The whitespace characters `parseInt` skips (the common ECMAScript
WhiteSpace/LineTerminator code points). -/
def jsWhitespace (c : Char) : Bool :=
  c == ' ' || c == '\t' || c == '\n' || c == '\r' || c == '\x0b' || c == '\x0c'

/-- Numeric value of a decimal digit character. -/
def digitVal (c : Char) : ℕ := c.toNat - '0'.toNat

/-- The natural number a string of decimal digits denotes, most
significant digit first. -/
def digitsToNat (l : List Char) : ℕ := l.foldl (fun acc c => 10 * acc + digitVal c) 0

/-- Modelled from the spec: the ECMAScript `parseInt(_, 10)` builtin
applied to a digit tail: the longest leading run of decimal digits is
read, and an empty run gives `NaN` (`none`). -/
def parseIntDigits (l : List Char) : Option ℤ :=
  let ds := l.takeWhile Char.isDigit
  if ds.isEmpty then none else some ((digitsToNat ds : ℕ) : ℤ)

/-- Modelled from the spec: `parseInt(s, 10)` — skip leading
whitespace, read an optional sign, then the longest run of decimal
digits; `NaN` (`none`) when no digit follows. -/
def parseIntBase10 (s : String) : Option ℤ :=
  let l := s.toList.dropWhile jsWhitespace
  if l.head? = some '-' then (parseIntDigits l.tail).map (fun n => -n)
  else if l.head? = some '+' then parseIntDigits l.tail
  else parseIntDigits l

/-- Source lines 36-39: `saved ? parseInt(saved, 10) : 0`.  The getter
returns `none` for an absent key; the empty string is falsy, so it also
falls back to `0`; any other string goes through `parseInt`. -/
def initHighScore : Option String → Option ℤ
  | none => some 0
  | some s => if s = "" then some 0 else parseIntBase10 s

/-! ### Concrete states used by counterexamples and witnesses -/

/-- A playing state whose bird sits fully inside the top pipe's solid
region on the next tick: after the update the bird is at `y = 10`
(extent `[10, 34]`) while the pipe at `x = 59` has its gap band at
`[50, 200]`. -/
def cs1 : GameState :=
  ⟨true, false, 0, 0, none, ⟨10, -1/2, 40, 0⟩, [⟨62, 50⟩], 0⟩

/-- A playing state holding one pipe whose left edge sits exactly at
`-PIPE_WIDTH`. -/
def cs3 : GameState :=
  ⟨true, false, 0, 0, none, birdInit, [⟨-52, 175⟩], 0⟩

/-- A playing state with the untouched initial bird and no pipes. -/
def cs5 : GameState := ⟨true, false, 0, 0, none, birdInit, [], 0⟩

/-- A playing state whose bird leaves the canvas on the next tick while
a pipe enters the scoring window on that same tick. -/
def cs10 : GameState :=
  ⟨true, false, 0, 0, none, ⟨498, 5/2, 0, 0⟩, [⟨-1, 175⟩], 0⟩

/-- A playing state with zero high score and a pipe entering the
scoring window on the next tick. -/
def cs4 : GameState :=
  ⟨true, false, 0, 0, none, birdInit, [⟨-1, 175⟩], 0⟩

/-- One tick into a fresh session, with the request id 99 chosen so the
next tick spawns a pipe. -/
def cs9a : GameState := tick 0 99 (jump (initState 0 none))

/-- The spawning tick after `cs9a`, drawing `Math.random() = 1/2`. -/
def cs9b : GameState := tick (1/2) 0 cs9a

/-! ### Basic facts about one tick -/

/-- The `frameRef` always holds the fresh request id after a callback. -/
theorem tick_frame (rho : ℚ) (rid : ℕ) (s : GameState) : (tick rho rid s).frame = rid := by
  unfold tick
  split
  · rfl
  · rfl

/-- No path of the loop writes `gameStarted`. -/
theorem tick_started (rho : ℚ) (rid : ℕ) (s : GameState) :
    (tick rho rid s).gameStarted = s.gameStarted := by
  unfold tick
  split
  · rfl
  · rfl

/-- When the session is not Playing the callback only reschedules:
lines 143-146. -/
theorem tick_not_playing (rho : ℚ) (rid : ℕ) (s : GameState) (h : ¬ isPlaying s) :
    tick rho rid s = { s with frame := rid } := by
  unfold tick
  rw [if_pos]
  unfold isPlaying at h
  rcases Bool.eq_false_or_eq_true s.gameStarted with hs | hs
  · rcases Bool.eq_false_or_eq_true s.gameOver with ho | ho
    · exact Or.inr ho
    · exact absurd ⟨hs, ho⟩ h
  · exact Or.inl hs

/-- The whole playing tick, written out. -/
theorem tick_playing (rho : ℚ) (rid : ℕ) (s : GameState) (h : isPlaying s) :
    tick rho rid s =
      { gameStarted := s.gameStarted,
        gameOver := decide (outOfBounds (birdStep s.bird).y) ||
          (movePipes (pushPipes (s.frame + 1) rho s.pipes)).any
            fun p => decide (pipeHit p (birdStep s.bird).y),
        score := (scorePass s.highScore (movePipes (pushPipes (s.frame + 1) rho s.pipes))
          (s.score, s.highScore, s.stored)).1,
        highScore := (scorePass s.highScore (movePipes (pushPipes (s.frame + 1) rho s.pipes))
          (s.score, s.highScore, s.stored)).2.1,
        stored := (scorePass s.highScore (movePipes (pushPipes (s.frame + 1) rho s.pipes))
          (s.score, s.highScore, s.stored)).2.2,
        bird := birdStep s.bird,
        pipes := movePipes (pushPipes (s.frame + 1) rho s.pipes),
        frame := rid } := by
  unfold tick
  rw [if_neg]
  rw [h.1, h.2]
  simp

/-- The game-over flag after a playing tick, as a proposition. -/
theorem tick_gameOver_iff (rho : ℚ) (rid : ℕ) (s : GameState) (h : isPlaying s) :
    (tick rho rid s).gameOver = true ↔
      (outOfBounds (birdStep s.bird).y ∨
       ∃ p ∈ movePipes (pushPipes (s.frame + 1) rho s.pipes),
         pipeHit p (birdStep s.bird).y) := by
  rw [tick_playing rho rid s h]
  simp [List.any_eq_true]

/-! ### The scoring pass -/

theorem scorePass_nil (hs0 : ℤ) (acc : ℕ × ℤ × Option ℤ) : scorePass hs0 [] acc = acc := rfl

theorem scorePass_cons (hs0 : ℤ) (p : Pipe) (ps : List Pipe) (acc : ℕ × ℤ × Option ℤ) :
    scorePass hs0 (p :: ps) acc = scorePass hs0 ps (scoreStep hs0 acc p) := rfl

theorem countWin_nil : countWin [] = 0 := rfl

theorem countWin_cons_pos {p : Pipe} (ps : List Pipe) (h : scoreWin p.x) :
    countWin (p :: ps) = countWin ps + 1 := by
  simp [countWin, List.filter_cons, h]

theorem countWin_cons_neg {p : Pipe} (ps : List Pipe) (h : ¬ scoreWin p.x) :
    countWin (p :: ps) = countWin ps := by
  simp [countWin, List.filter_cons, h]

theorem countWin_eq_zero {ps : List Pipe} :
    countWin ps = 0 ↔ ∀ p ∈ ps, ¬ scoreWin p.x := by
  simp [countWin, List.length_eq_zero, List.filter_eq_nil_iff]

theorem scoreStep_neg {hs0 : ℤ} {acc : ℕ × ℤ × Option ℤ} {p : Pipe}
    (h : ¬ scoreWin p.x) : scoreStep hs0 acc p = acc := by
  unfold scoreStep
  rw [if_neg h]

theorem scoreStep_pos_hi {hs0 : ℤ} {acc : ℕ × ℤ × Option ℤ} {p : Pipe}
    (h : scoreWin p.x) (h2 : ((acc.1 + 1 : ℕ) : ℤ) > hs0) :
    scoreStep hs0 acc p = (acc.1 + 1, ((acc.1 + 1 : ℕ) : ℤ), some ((acc.1 + 1 : ℕ) : ℤ)) := by
  unfold scoreStep
  rw [if_pos h]
  simp only []
  rw [if_pos h2]

theorem scoreStep_pos_lo {hs0 : ℤ} {acc : ℕ × ℤ × Option ℤ} {p : Pipe}
    (h : scoreWin p.x) (h2 : ¬ ((acc.1 + 1 : ℕ) : ℤ) > hs0) :
    scoreStep hs0 acc p = (acc.1 + 1, acc.2.1, acc.2.2) := by
  unfold scoreStep
  rw [if_pos h]
  simp only []
  rw [if_neg h2]

/-- The scoring pass adds one to the score for every pipe in the window. -/
theorem scorePass_score (hs0 : ℤ) (ps : List Pipe) :
    ∀ acc : ℕ × ℤ × Option ℤ, (scorePass hs0 ps acc).1 = acc.1 + countWin ps := by
  induction ps with
  | nil => intro acc; simp [scorePass_nil, countWin_nil]
  | cons p ps ih =>
    intro acc
    rw [scorePass_cons]
    by_cases h : scoreWin p.x
    · rw [countWin_cons_pos ps h]
      by_cases h2 : ((acc.1 + 1 : ℕ) : ℤ) > hs0
      · rw [scoreStep_pos_hi h h2, ih]; omega
      · rw [scoreStep_pos_lo h h2, ih]; omega
    · rw [countWin_cons_neg ps h, scoreStep_neg h, ih]

/-- With no pipe in the window the scoring pass changes nothing. -/
theorem scorePass_nowin (hs0 : ℤ) (ps : List Pipe) (h : ∀ p ∈ ps, ¬ scoreWin p.x) :
    ∀ acc : ℕ × ℤ × Option ℤ, scorePass hs0 ps acc = acc := by
  induction ps with
  | nil => intro acc; rfl
  | cons p ps ih =>
    intro acc
    rw [scorePass_cons, scoreStep_neg (h p (List.mem_cons_self p ps))]
    exact ih (fun q hq => h q (List.mem_cons_of_mem p hq)) acc

/-- When even the final score does not beat the closure high score, the
high score and the stored value are untouched. -/
theorem scorePass_low (hs0 : ℤ) (ps : List Pipe) :
    ∀ acc : ℕ × ℤ × Option ℤ, ((acc.1 + countWin ps : ℕ) : ℤ) ≤ hs0 →
      (scorePass hs0 ps acc).2 = acc.2 := by
  induction ps with
  | nil => intro acc _; rfl
  | cons p ps ih =>
    intro acc hle
    rw [scorePass_cons]
    by_cases h : scoreWin p.x
    · rw [countWin_cons_pos ps h] at hle
      have h2 : ¬ ((acc.1 + 1 : ℕ) : ℤ) > hs0 := by push_cast at hle ⊢; omega
      rw [scoreStep_pos_lo h h2]
      exact ih (acc.1 + 1, acc.2.1, acc.2.2) (by push_cast at hle ⊢; omega)
    · rw [countWin_cons_neg ps h] at hle
      rw [scoreStep_neg h]
      exact ih acc hle

/-- When at least one pipe scores and the final score beats the closure
high score, the high score and the stored value both end at the final
score. -/
theorem scorePass_high (hs0 : ℤ) (ps : List Pipe) :
    ∀ acc : ℕ × ℤ × Option ℤ, 1 ≤ countWin ps →
      hs0 < ((acc.1 + countWin ps : ℕ) : ℤ) →
      (scorePass hs0 ps acc).2 =
        (((acc.1 + countWin ps : ℕ) : ℤ), some ((acc.1 + countWin ps : ℕ) : ℤ)) := by
  induction ps with
  | nil => intro acc h1 _; exact absurd h1 (by simp [countWin_nil])
  | cons p ps ih =>
    intro acc h1 h2
    rw [scorePass_cons]
    by_cases h : scoreWin p.x
    · rw [countWin_cons_pos ps h] at h2 ⊢
      by_cases hz : countWin ps = 0
      · have hnw : ∀ q ∈ ps, ¬ scoreWin q.x := countWin_eq_zero.mp hz
        have hgt : ((acc.1 + 1 : ℕ) : ℤ) > hs0 := by
          rw [hz] at h2; push_cast at h2 ⊢; omega
        rw [scoreStep_pos_hi h hgt, scorePass_nowin hs0 ps hnw, hz]
      · have hw1 : 1 ≤ countWin ps := Nat.one_le_iff_ne_zero.mpr hz
        by_cases hgt : ((acc.1 + 1 : ℕ) : ℤ) > hs0
        · rw [scoreStep_pos_hi h hgt,
            ih (acc.1 + 1, ((acc.1 + 1 : ℕ) : ℤ), some ((acc.1 + 1 : ℕ) : ℤ))
              hw1 (by push_cast at h2 ⊢; omega)]
          have hacc : acc.1 + 1 + countWin ps = acc.1 + (countWin ps + 1) := by omega
          rw [hacc]
        · rw [scoreStep_pos_lo h hgt,
            ih (acc.1 + 1, acc.2.1, acc.2.2) hw1 (by push_cast at h2 ⊢; omega)]
          have hacc : acc.1 + 1 + countWin ps = acc.1 + (countWin ps + 1) := by omega
          rw [hacc]
    · rw [countWin_cons_neg ps h] at h1 h2 ⊢
      rw [scoreStep_neg h]
      exact ih acc h1 h2

/-! ### Pipe motion -/

theorem mem_pushPipes_self (f : ℕ) (rho : ℚ) (ps : List Pipe) (p : Pipe) (h : p ∈ ps) :
    p ∈ pushPipes f rho ps := by
  unfold pushPipes
  split
  · exact List.mem_append_left _ h
  · exact h

theorem mem_pushPipes_elim {f : ℕ} {rho : ℚ} {ps : List Pipe} {p : Pipe}
    (h : p ∈ pushPipes f rho ps) : p ∈ ps ∨ p = ⟨CANVAS_W, spawnHeight rho⟩ := by
  unfold pushPipes at h
  split at h
  · rcases List.mem_append.mp h with h1 | h1
    · exact Or.inl h1
    · simp only [List.mem_singleton] at h1
      exact Or.inr h1
  · exact Or.inl h

theorem mem_movePipes {ps : List Pipe} {q : Pipe} :
    q ∈ movePipes ps ↔
      ∃ r ∈ ps, r.x > -PIPE_WIDTH ∧ q = ⟨r.x - PIPE_SPEED, r.topHeight⟩ := by
  unfold movePipes
  simp only [List.mem_map, List.mem_filter, decide_eq_true_eq]
  constructor
  · rintro ⟨r, ⟨hr, hx⟩, rfl⟩
    exact ⟨r, hr, hx, rfl⟩
  · rintro ⟨r, hr, hx, rfl⟩
    exact ⟨r, ⟨hr, hx⟩, rfl⟩

/-! ### The jump and reset handlers -/

theorem jump_initState (hs : ℤ) (st : Option ℤ) :
    jump (initState hs st) =
      ⟨true, false, 0, hs, st, ⟨250, JUMP_FORCE, -20, 0⟩, [], 0⟩ := rfl

theorem jump_highScore (s : GameState) : (jump s).highScore = s.highScore := by
  simp only [jump]
  split <;> split <;> rfl

theorem jump_stored (s : GameState) : (jump s).stored = s.stored := by
  simp only [jump]
  split <;> split <;> rfl

theorem jump_score_of_not_started {s : GameState} (h : s.gameStarted = false) :
    (jump s).score = 0 ∧ (jump s).gameStarted = true ∧ (jump s).gameOver = false := by
  simp only [jump, h]
  split <;> simp

theorem jump_pipes (s : GameState) :
    (jump s).pipes = if s.gameStarted = false then [] else s.pipes := by
  simp only [jump]
  split <;> split <;> simp_all

/-- A jump on an already started session only touches the bird: the
session flag, the score and the high score are untouched (whether the
session is over or not). -/
theorem jump_started_inv {s : GameState} (h : s.gameStarted = true) :
    (jump s).gameStarted = true ∧ (jump s).score = s.score ∧
    (jump s).highScore = s.highScore := by
  have hne : ¬ s.gameStarted = false := by
    rw [h]
    simp
  unfold jump
  simp only [if_neg hne]
  split
  · exact ⟨h, rfl, rfl⟩
  · exact ⟨h, rfl, rfl⟩

theorem resetGame_def (s : GameState) :
    resetGame s =
      ⟨false, false, 0, s.highScore, s.stored, birdInit, [], s.frame⟩ := rfl

/-! ### Scoring seen from the tick -/

theorem tick_score (rho : ℚ) (rid : ℕ) (s : GameState) (h : isPlaying s) :
    (tick rho rid s).score =
      s.score + countWin (movePipes (pushPipes (s.frame + 1) rho s.pipes)) := by
  rw [tick_playing rho rid s h]
  exact scorePass_score s.highScore _ _

/-- Each tick either leaves the high score and the stored value alone,
or raises the high score to the new current score and writes exactly
that value to storage. -/
theorem tick_highScore_dichotomy (rho : ℚ) (rid : ℕ) (s : GameState) :
    ((tick rho rid s).highScore = s.highScore ∧ (tick rho rid s).stored = s.stored) ∨
    (s.highScore < (tick rho rid s).highScore ∧
     (tick rho rid s).stored = some ((tick rho rid s).highScore) ∧
     (tick rho rid s).highScore = ((tick rho rid s).score : ℤ)) := by
  by_cases h : isPlaying s
  · rw [tick_playing rho rid s h]
    set ps := movePipes (pushPipes (s.frame + 1) rho s.pipes) with hps
    by_cases hz : countWin ps = 0
    · left
      rw [scorePass_nowin s.highScore ps (countWin_eq_zero.mp hz)]
      exact ⟨rfl, rfl⟩
    · by_cases hle : ((s.score + countWin ps : ℕ) : ℤ) ≤ s.highScore
      · left
        have := scorePass_low s.highScore ps (s.score, s.highScore, s.stored) (by exact hle)
        rw [show ((scorePass s.highScore ps (s.score, s.highScore, s.stored)).2.1 : ℤ) =
          (scorePass s.highScore ps (s.score, s.highScore, s.stored)).2.fst from rfl]
        constructor
        · exact congrArg Prod.fst this
        · exact congrArg Prod.snd this
      · right
        have hw1 : 1 ≤ countWin ps := Nat.one_le_iff_ne_zero.mpr hz
        have hgt : s.highScore < ((s.score + countWin ps : ℕ) : ℤ) := by omega
        have hhi := scorePass_high s.highScore ps (s.score, s.highScore, s.stored) hw1 hgt
        have hsc := scorePass_score s.highScore ps (s.score, s.highScore, s.stored)
        constructor
        · rw [congrArg Prod.fst hhi]; exact hgt
        constructor
        · rw [congrArg Prod.snd hhi, congrArg Prod.fst hhi]
        · rw [congrArg Prod.fst hhi, hsc]
  · rw [tick_not_playing rho rid s h]
    left
    exact ⟨rfl, rfl⟩

/-- The running session invariant: the in-memory high score is the
maximum of the pre-session high score and the current score. -/
theorem tick_session_inv (hs0 : ℤ) (rho : ℚ) (rid : ℕ) (s : GameState)
    (h : s.highScore = max hs0 (s.score : ℤ)) :
    (tick rho rid s).highScore = max hs0 ((tick rho rid s).score : ℤ) := by
  by_cases hp : isPlaying s
  · have hsc := tick_score rho rid s hp
    rw [tick_playing rho rid s hp] at hsc ⊢
    set ps := movePipes (pushPipes (s.frame + 1) rho s.pipes) with hps
    by_cases hz : countWin ps = 0
    · rw [scorePass_nowin s.highScore ps (countWin_eq_zero.mp hz)]
      simpa using h
    · by_cases hle : ((s.score + countWin ps : ℕ) : ℤ) ≤ s.highScore
      · have h2 := scorePass_low s.highScore ps (s.score, s.highScore, s.stored) hle
        rw [congrArg Prod.fst h2, hsc]
        rw [h] at hle ⊢
        rcases le_total hs0 (s.score : ℤ) with hc | hc
        · rw [max_eq_right hc] at hle
          have : countWin ps = 0 := by push_cast at hle; omega
          exact absurd this hz
        · rw [max_eq_left hc] at hle
          rw [max_eq_left hc, max_eq_left (by push_cast at hle ⊢; omega)]
      · have hw1 : 1 ≤ countWin ps := Nat.one_le_iff_ne_zero.mpr hz
        have hgt : s.highScore < ((s.score + countWin ps : ℕ) : ℤ) := by omega
        have hhi := scorePass_high s.highScore ps (s.score, s.highScore, s.stored) hw1 hgt
        rw [congrArg Prod.fst hhi, hsc]
        rw [h] at hgt
        have hmax : max hs0 ((s.score + countWin ps : ℕ) : ℤ) =
            ((s.score + countWin ps : ℕ) : ℤ) := by
          rcases le_total hs0 (s.score : ℤ) with hc | hc
          · exact max_eq_right (le_trans hc (by push_cast; omega))
          · rw [max_eq_left hc] at hgt
            exact max_eq_right (le_of_lt hgt)
        rw [hmax]
  · rw [tick_not_playing rho rid s hp]
    exact h

/-! ### The no-input session -/

theorem birdStep_velocity (b : Bird) : (birdStep b).velocity = b.velocity + GRAVITY := rfl

theorem birdStep_y (b : Bird) : (birdStep b).y = b.y + (b.velocity + GRAVITY) := rfl

theorem fallY_zero : fallY 0 = 250 := by norm_num [fallY]

theorem fallY_succ (k : ℕ) :
    fallY (k + 1) = fallY k + (JUMP_FORCE + ((k : ℚ) + 1) * GRAVITY) := by
  unfold fallY GRAVITY JUMP_FORCE
  push_cast
  ring

theorem fallY_bounds : ∀ k : ℕ, k ≤ 50 → 0 ≤ fallY k ∧ fallY k ≤ 500 := by
  intro k hk
  have hx0 : (0 : ℚ) ≤ (k : ℚ) := Nat.cast_nonneg k
  have hx50 : (k : ℚ) ≤ 50 := by exact_mod_cast hk
  unfold fallY JUMP_FORCE
  constructor
  · nlinarith [sq_nonneg ((k : ℚ) - 31/2)]
  · nlinarith [mul_nonneg (sub_nonneg.mpr hx50) (by linarith : (0:ℚ) ≤ (k:ℚ) + 20)]

theorem fallY_51 : fallY 51 = 505 := by norm_num [fallY, JUMP_FORCE]

theorem fallY_down (k : ℕ) (hk : k < 15) : fallY (k + 1) < fallY k := by
  have : (k : ℚ) ≤ 14 := by exact_mod_cast Nat.lt_succ_iff.mp hk
  rw [fallY_succ]
  unfold JUMP_FORCE GRAVITY
  linarith

theorem fallY_flat : fallY 16 = fallY 15 := by norm_num [fallY, JUMP_FORCE]

theorem fallY_up (k : ℕ) (hk : 16 ≤ k) : fallY k < fallY (k + 1) := by
  have : (16 : ℚ) ≤ (k : ℚ) := by exact_mod_cast hk
  rw [fallY_succ]
  unfold JUMP_FORCE GRAVITY
  linarith

theorem tick_gameOver_stable (rho : ℚ) (rid : ℕ) {s : GameState} (h : s.gameOver = true) :
    (tick rho rid s).gameOver = true := by
  rw [tick_not_playing rho rid s (fun hp => by rw [hp.2] at h; exact absurd h (by simp))]
  exact h

/-- The complete description of the first 51 ticks of a session started
by a jump on a fresh mount and given no further input: the bird follows
`fallY`, no pipe ever reaches the bird's column, nothing scores, and the
game-over flag first turns on at tick 51. -/
theorem fall_inv (hs : ℤ) (st : Option ℤ) (rho : ℕ → ℚ) (rid : ℕ → ℕ) :
    ∀ k : ℕ, k ≤ 51 →
      (steps rho rid (jump (initState hs st)) k).gameStarted = true ∧
      (steps rho rid (jump (initState hs st)) k).gameOver = decide (k = 51) ∧
      (steps rho rid (jump (initState hs st)) k).score = 0 ∧
      (steps rho rid (jump (initState hs st)) k).highScore = hs ∧
      (steps rho rid (jump (initState hs st)) k).stored = st ∧
      (steps rho rid (jump (initState hs st)) k).bird.velocity =
        JUMP_FORCE + (k : ℚ) * GRAVITY ∧
      (steps rho rid (jump (initState hs st)) k).bird.y = fallY k ∧
      ∀ p ∈ (steps rho rid (jump (initState hs st)) k).pipes,
        800 - 3 * (k : ℚ) ≤ p.x := by
  intro k
  induction k with
  | zero =>
    intro _
    rw [show steps rho rid (jump (initState hs st)) 0 = jump (initState hs st) from rfl,
      jump_initState]
    refine ⟨rfl, by simp, rfl, rfl, rfl, by norm_num, by rw [fallY_zero], ?_⟩
    intro p hp
    simp at hp
  | succ k ih =>
    intro hk1
    obtain ⟨h1, h2, h3, h4, h5, h6, h7, h8⟩ := ih (le_trans (Nat.le_succ k) hk1)
    have hk50 : k ≤ 50 := Nat.lt_succ_iff.mp hk1
    set t := steps rho rid (jump (initState hs st)) k with ht
    have hkp : isPlaying t := by
      refine ⟨h1, ?_⟩
      rw [h2]
      simp only [decide_eq_false_iff_not]
      omega
    have hstep : steps rho rid (jump (initState hs st)) (k + 1) = tick (rho k) (rid k) t := rfl
    rw [hstep, tick_playing _ _ _ hkp]
    have hy : (birdStep t.bird).y = fallY (k + 1) := by
      rw [birdStep_y, h7, h6, fallY_succ]
      ring
    have hpipes : ∀ p ∈ movePipes (pushPipes (t.frame + 1) (rho k) t.pipes),
        800 - 3 * ((k : ℚ) + 1) ≤ p.x := by
      intro p hp
      rcases mem_movePipes.mp hp with ⟨r, hr, _, rfl⟩
      rcases mem_pushPipes_elim hr with hr1 | hr1
      · have := h8 r hr1
        unfold PIPE_SPEED
        simp only []
        linarith
      · rw [hr1]
        unfold PIPE_SPEED CANVAS_W
        simp only []
        have : (0 : ℚ) ≤ (k : ℚ) := Nat.cast_nonneg k
        linarith
    have hfar : ∀ p ∈ movePipes (pushPipes (t.frame + 1) (rho k) t.pipes),
        (650 : ℚ) - 3 ≤ p.x := by
      intro p hp
      have := hpipes p hp
      have hkq : ((k : ℚ) + 1) ≤ 51 := by
        have : (k : ℚ) ≤ 50 := by exact_mod_cast hk50
        linarith
      linarith
    have hnowin : ∀ p ∈ movePipes (pushPipes (t.frame + 1) (rho k) t.pipes),
        ¬ scoreWin p.x := by
      intro p hp hw
      have := hfar p hp
      unfold scoreWin PIPE_WIDTH at hw
      rcases hw with ⟨hw1, _⟩
      linarith
    have hnohit : ∀ p ∈ movePipes (pushPipes (t.frame + 1) (rho k) t.pipes),
        ¬ pipeHit p (birdStep t.bird).y := by
      intro p hp hh
      have := hfar p hp
      unfold pipeHit BIRD_WIDTH BIRD_X at hh
      rcases hh with ⟨_, _, _, hc, _⟩
      linarith
    have hscore := scorePass_nowin t.highScore _ hnowin (t.score, t.highScore, t.stored)
    refine ⟨h1, ?_, ?_, ?_, ?_, ?_, hy, ?_⟩
    · -- game-over flag
      dsimp only
      by_cases h51 : k + 1 = 51
      · have hob : outOfBounds (birdStep t.bird).y := by
          rw [hy, h51, fallY_51]
          right
          norm_num [CANVAS_H]
        simp only [h51, decide_eq_true_eq]
        simp [hob]
      · have hb := fallY_bounds (k + 1) (by omega)
        have hob : ¬ outOfBounds (birdStep t.bird).y := by
          rw [hy]
          unfold outOfBounds CANVAS_H
          push_neg
          exact ⟨hb.1, hb.2⟩
        have hd : decide (k + 1 = 51) = false := by
          simp only [decide_eq_false_iff_not]
          exact h51
        rw [hd]
        simp only [Bool.or_eq_false_iff]
        constructor
        · simpa using hob
        · rw [List.any_eq_false]
          intro p hp
          simpa using hnohit p hp
    · rw [hscore]; exact h3
    · rw [hscore]; exact h4
    · rw [hscore]; exact h5
    · show (birdStep t.bird).velocity = _
      rw [birdStep_velocity, h6]
      push_cast
      ring
    · intro p hp
      have := hpipes p hp
      push_cast
      linarith

/-! ### The collision test, characterized -/

/-- The code's four-way test is exactly the straddle condition: with the
gap 150 wide, the two outer cases split cleanly. -/
theorem pipeHit_iff_straddle (p : Pipe) (y : ℚ) : pipeHit p y ↔ straddleHit p y := by
  unfold pipeHit straddleHit PIPE_GAP BIRD_HEIGHT BIRD_WIDTH BIRD_X
  constructor
  · rintro ⟨h1 | h1, h2, h3, h4, h5⟩
    · exact ⟨Or.inl ⟨by linarith, h1⟩, h4, h5⟩
    · exact ⟨Or.inr ⟨h1, by linarith⟩, h4, h5⟩
  · rintro ⟨h1 | h1, h4, h5⟩
    · exact ⟨Or.inl h1.2, by linarith [h1.1], by linarith [h1.2], h4, h5⟩
    · exact ⟨Or.inr h1.1, by linarith [h1.1], by linarith [h1.2], h4, h5⟩

/-! ### Evaluation helpers for concrete states -/

theorem pushPipes_spawn {f : ℕ} (rho : ℚ) (ps : List Pipe) (h : f % 100 = 0) :
    pushPipes f rho ps = ps ++ [⟨CANVAS_W, spawnHeight rho⟩] := by
  simp [pushPipes, h]

theorem pushPipes_nospawn {f : ℕ} (rho : ℚ) (ps : List Pipe) (h : ¬ f % 100 = 0) :
    pushPipes f rho ps = ps := by
  simp [pushPipes, h]

theorem movePipes_nil : movePipes [] = [] := rfl

theorem movePipes_cons_keep {p : Pipe} (ps : List Pipe) (h : p.x > -PIPE_WIDTH) :
    movePipes (p :: ps) = ⟨p.x - PIPE_SPEED, p.topHeight⟩ :: movePipes ps := by
  simp [movePipes, List.filter_cons, h]

theorem movePipes_cons_drop {p : Pipe} (ps : List Pipe) (h : ¬ p.x > -PIPE_WIDTH) :
    movePipes (p :: ps) = movePipes ps := by
  simp [movePipes, List.filter_cons, h]

/-! ### Claim C8: the reset action -/

/-- C8: the reset action, invoked from any state, transitions the
session to Idle with score 0, an empty pipe list, and the bird restored
to its initial position, velocity, rotation and animation frame. -/
theorem C8_reset_returns_to_idle (s : GameState) :
    isIdle (resetGame s) ∧ (resetGame s).score = 0 ∧ (resetGame s).pipes = [] ∧
    (resetGame s).bird = birdInit :=
  ⟨⟨rfl, rfl⟩, rfl, rfl, rfl⟩

/-! ### Claim C7: high-score initialization -/

theorem initHighScore_some (s : String) :
    initHighScore (some s) = if s = "" then some 0 else parseIntBase10 s := rfl

theorem digit_not_ws {c : Char} (h : c.isDigit = true) : jsWhitespace c = false := by
  simp only [jsWhitespace, Bool.or_eq_false_iff, beq_eq_false_iff_ne, ne_eq]
  refine ⟨⟨⟨⟨⟨?_, ?_⟩, ?_⟩, ?_⟩, ?_⟩, ?_⟩ <;>
    (rintro rfl; exact absurd h (by decide))

theorem digit_ne_sign {c : Char} (h : c.isDigit = true) : c ≠ '-' ∧ c ≠ '+' := by
  constructor <;> (rintro rfl; exact absurd h (by decide))

theorem takeWhile_digits {l : List Char} (h : ∀ c ∈ l, c.isDigit = true) :
    l.takeWhile Char.isDigit = l := by
  induction l with
  | nil => rfl
  | cons c l ih =>
    rw [List.takeWhile_cons, if_pos (h c (List.mem_cons_self c l))]
    rw [ih (fun d hd => h d (List.mem_cons_of_mem c hd))]

theorem parseIntDigits_all {l : List Char} (hne : l ≠ [])
    (h : ∀ c ∈ l, c.isDigit = true) :
    parseIntDigits l = some ((digitsToNat l : ℕ) : ℤ) := by
  unfold parseIntDigits
  rw [takeWhile_digits h]
  rw [if_neg (by simpa [List.isEmpty_iff] using hne)]

/-- C7 counterexample: the stored string `"abc"` is malformed, and the
initialization yields `NaN` (modelled `none`), not zero. -/
theorem C7_counterexample :
    initHighScore (some "abc") = none ∧ initHighScore (some "abc") ≠ some 0 := by
  constructor
  · decide
  · decide

/-- C7 as amended: an absent key or the (falsy) empty string falls back
to zero; a non-empty string whose longest leading run of digits (after
optional whitespace and sign) is empty yields `NaN`, not zero — as
`"abc"` shows; and a well-formed base-10 integer string yields exactly
the integer it denotes. -/
theorem C7_amended :
    initHighScore none = some 0 ∧
    initHighScore (some "") = some 0 ∧
    initHighScore (some "abc") = none ∧
    (∀ l : List Char, l ≠ [] → (∀ c ∈ l, c.isDigit = true) →
      initHighScore (some (String.mk l)) = some ((digitsToNat l : ℕ) : ℤ)) ∧
    (∀ l : List Char, l ≠ [] → (∀ c ∈ l, c.isDigit = true) →
      initHighScore (some (String.mk ('-' :: l))) = some (-((digitsToNat l : ℕ) : ℤ))) := by
  refine ⟨rfl, rfl, by decide, ?_, ?_⟩
  · intro l hne h
    obtain ⟨c, l', rfl⟩ := List.exists_cons_of_ne_nil hne
    have hc := h c (List.mem_cons_self c l')
    rw [initHighScore_some, if_neg (by simp [String.ext_iff])]
    unfold parseIntBase10
    have htl : (String.mk (c :: l')).toList = c :: l' := rfl
    rw [htl]
    rw [List.dropWhile_cons_of_neg (by simp [digit_not_ws hc])]
    rw [if_neg (by simp [(digit_ne_sign hc).1]), if_neg (by simp [(digit_ne_sign hc).2])]
    exact parseIntDigits_all hne h
  · intro l hne h
    rw [initHighScore_some, if_neg (by simp [String.ext_iff])]
    unfold parseIntBase10
    have htl : (String.mk ('-' :: l)).toList = '-' :: l := rfl
    rw [htl]
    rw [List.dropWhile_cons_of_neg (by decide)]
    rw [if_pos (by simp)]
    rw [show ('-' :: l).tail = l from rfl]
    rw [parseIntDigits_all hne h]
    rfl

/-- C7 amended, instantiated: the stored string `"42"` initializes the
high score to the integer it denotes. -/
theorem C7_amended_witness :
    initHighScore (some (String.mk ['4', '2'])) =
      some ((digitsToNat ['4', '2'] : ℕ) : ℤ) :=
  C7_amended.2.2.2.1 ['4', '2'] (by decide) (by decide)

/-! ### Claim C2: scoring once per pipe -/

theorem tick_pipes (rho : ℚ) (rid : ℕ) (s : GameState) (h : isPlaying s) :
    (tick rho rid s).pipes = movePipes (pushPipes (s.frame + 1) rho s.pipes) := by
  rw [tick_playing rho rid s h]

/-- The scoring window holds a spawned pipe's trajectory exactly at the
267th tick after its spawn tick. -/
theorem scoreWin_pipeX_iff (k : ℕ) : scoreWin (pipeX k) ↔ k = 267 := by
  constructor
  · intro hw
    obtain ⟨h1, h2⟩ := hw
    unfold pipeX CANVAS_W PIPE_SPEED PIPE_WIDTH at h1 h2
    have e1 : (799 : ℚ) < 3 * (k : ℚ) := by linarith
    have e2 : (3 : ℚ) * (k : ℚ) < 802 := by linarith
    have n1 : 799 < 3 * k := by exact_mod_cast e1
    have n2 : 3 * k < 802 := by exact_mod_cast e2
    omega
  · rintro rfl
    unfold scoreWin pipeX CANVAS_W PIPE_SPEED PIPE_WIDTH
    norm_num

/-- C2: a spawned pipe's trajectory meets the scoring window on exactly
one tick; up to and including that tick the pipe has never been removed
by the recycling filter; on every playing tick the score grows by
exactly the number of window pipes (one increment per pipe); and every
surviving pipe's successor stays in the list, so the window pipe is
indeed scored on its window tick. -/
theorem C2_score_exactly_once :
    (∃! k : ℕ, scoreWin (pipeX k)) ∧
    (∀ k : ℕ, scoreWin (pipeX k) → ∀ j : ℕ, j ≤ k → pipeX j > -PIPE_WIDTH) ∧
    (∀ (rho : ℚ) (rid : ℕ) (s : GameState), isPlaying s →
      (tick rho rid s).score = s.score + countWin ((tick rho rid s).pipes)) ∧
    (∀ (rho : ℚ) (rid : ℕ) (s : GameState), isPlaying s →
      ∀ p : Pipe, p ∈ s.pipes → p.x > -PIPE_WIDTH →
        (⟨p.x - PIPE_SPEED, p.topHeight⟩ : Pipe) ∈ (tick rho rid s).pipes) := by
  refine ⟨⟨267, (scoreWin_pipeX_iff 267).mpr rfl, fun y hy => (scoreWin_pipeX_iff y).mp hy⟩,
    ?_, ?_, ?_⟩
  · intro k hk j hj
    have h267 : k = 267 := (scoreWin_pipeX_iff k).mp hk
    subst h267
    have : (j : ℚ) ≤ 267 := by exact_mod_cast hj
    unfold pipeX CANVAS_W PIPE_SPEED PIPE_WIDTH
    linarith
  · intro rho rid s h
    rw [tick_pipes rho rid s h]
    exact tick_score rho rid s h
  · intro rho rid s h p hp hx
    rw [tick_pipes rho rid s h]
    exact mem_movePipes.mpr ⟨p, mem_pushPipes_self _ _ _ _ hp, hx, rfl⟩

/-- C2, instantiated at a concrete playing state. -/
theorem C2_score_exactly_once_witness :
    (tick 0 0 cs5).score = cs5.score + countWin ((tick 0 0 cs5).pipes) :=
  C2_score_exactly_once.2.2.1 0 0 cs5 ⟨rfl, rfl⟩

/-! ### Claim C3: pipe recycling -/

/-- C3 counterexample: the playing state `cs3` holds a pipe at
`x = -52`, whose right edge `0` is not below `-PIPE_WIDTH`; the claim
would keep it, yet the tick removes it. -/
theorem C3_counterexample :
    isPlaying cs3 ∧ (⟨-52, 175⟩ : Pipe) ∈ cs3.pipes ∧
    ¬ ((-52 : ℚ) + PIPE_WIDTH < -PIPE_WIDTH) ∧
    (tick 0 0 cs3).pipes = [] := by
  refine ⟨⟨rfl, rfl⟩, by simp [cs3], ?_, ?_⟩
  · unfold PIPE_WIDTH
    norm_num
  · rw [tick_pipes 0 0 cs3 ⟨rfl, rfl⟩]
    rw [show cs3.frame + 1 = 1 from rfl, pushPipes_nospawn 0 _ (by norm_num)]
    rw [show cs3.pipes = [⟨-52, 175⟩] from rfl]
    rw [movePipes_cons_drop [] (by unfold PIPE_WIDTH; norm_num), movePipes_nil]

/-- C3 as amended: on a playing tick a pipe of the list is removed iff
its (pre-shift) position is not above `-PIPE_WIDTH` — that is, iff its
right edge has reached 0, not `-PIPE_WIDTH`; every pipe that survives
(and any pipe spawned this tick) is shifted left by exactly
`PIPE_SPEED`. -/
theorem C3_amended (rho : ℚ) (rid : ℕ) (s : GameState) (h : isPlaying s) :
    (∀ p ∈ s.pipes,
      ((⟨p.x - PIPE_SPEED, p.topHeight⟩ : Pipe) ∈ (tick rho rid s).pipes ↔
        p.x > -PIPE_WIDTH)) ∧
    (∀ q ∈ (tick rho rid s).pipes, ∃ r ∈ pushPipes (s.frame + 1) rho s.pipes,
      r.x > -PIPE_WIDTH ∧ q = ⟨r.x - PIPE_SPEED, r.topHeight⟩) := by
  constructor
  · intro p hp1
    constructor
    · intro hmem
      rw [tick_pipes rho rid s h] at hmem
      rcases mem_movePipes.mp hmem with ⟨r, _, hx, he⟩
      have hxx : r.x = p.x := by
        have := congrArg Pipe.x he
        dsimp at this
        linarith
      rw [← hxx]
      exact hx
    · intro hx
      rw [tick_pipes rho rid s h]
      exact mem_movePipes.mpr ⟨p, mem_pushPipes_self _ _ _ _ hp1, hx, rfl⟩
  · intro q hq
    rw [tick_pipes rho rid s h] at hq
    exact mem_movePipes.mp hq

/-- C3 amended, instantiated at `cs3`: the pipe at `x = -52` does not
survive the tick, matching `¬ (-52 > -PIPE_WIDTH)`. -/
theorem C3_amended_witness :
    ((⟨(-52 : ℚ) - PIPE_SPEED, (175 : ℚ)⟩ : Pipe) ∈ (tick 0 0 cs3).pipes ↔
      (-52 : ℚ) > -PIPE_WIDTH) := by
  have := (C3_amended 0 0 cs3 ⟨rfl, rfl⟩).1 ⟨-52, 175⟩ (by simp [cs3])
  simpa using this

/-! ### Claims C5 and C10 -/

theorem tick_gameOver_false (rho : ℚ) (rid : ℕ) (s : GameState) (h : isPlaying s)
    (hb : ¬ outOfBounds (birdStep s.bird).y)
    (hph : ∀ p ∈ movePipes (pushPipes (s.frame + 1) rho s.pipes),
      ¬ pipeHit p (birdStep s.bird).y) :
    (tick rho rid s).gameOver = false := by
  rw [tick_playing rho rid s h]
  dsimp only
  simp only [Bool.or_eq_false_iff]
  constructor
  · simpa using hb
  · rw [List.any_eq_false]
    intro p hp
    simpa using hph p hp

/-- C5: starting from the untouched initial bird in a Playing state,
after `N` ticks that all begin in the Playing state and receive no jump
input, the vertical velocity is exactly `N × GRAVITY` and the vertical
position is the initial position plus the running sum of the velocities
after each tick (Euler integration with the velocity updated first). -/
theorem C5_gravity_integration (rho : ℕ → ℚ) (rid : ℕ → ℕ) (s : GameState) (N : ℕ)
    (hb : s.bird = birdInit)
    (hpl : ∀ k : ℕ, k < N → isPlaying (steps rho rid s k)) :
    (steps rho rid s N).bird.velocity = (N : ℚ) * GRAVITY ∧
    (steps rho rid s N).bird.y =
      birdInit.y + ∑ k ∈ Finset.range N, ((k : ℚ) + 1) * GRAVITY := by
  induction N with
  | zero =>
    rw [show steps rho rid s 0 = s from rfl, hb]
    constructor <;> simp [birdInit]
  | succ N ih =>
    obtain ⟨hv, hy⟩ := ih (fun k hk => hpl k (Nat.lt_succ_of_lt hk))
    have hp := hpl N (Nat.lt_succ_self N)
    rw [show steps rho rid s (N + 1) = tick (rho N) (rid N) (steps rho rid s N) from rfl,
      tick_playing _ _ _ hp]
    constructor
    · show (birdStep _).velocity = _
      rw [birdStep_velocity, hv]
      push_cast
      ring
    · show (birdStep _).y = _
      rw [birdStep_y, hy, hv, Finset.sum_range_succ]
      ring

/-- C5, instantiated: two ticks from the initial bird give velocity
`2 × GRAVITY` and position `250 + (1 × GRAVITY + 2 × GRAVITY)`. -/
theorem C5_gravity_integration_witness :
    (steps (fun _ => (0 : ℚ)) (fun _ => 0) cs5 2).bird.velocity = ((2 : ℕ) : ℚ) * GRAVITY ∧
    (steps (fun _ => (0 : ℚ)) (fun _ => 0) cs5 2).bird.y =
      birdInit.y + ∑ k ∈ Finset.range 2, ((k : ℚ) + 1) * GRAVITY := by
  refine C5_gravity_integration _ _ cs5 2 rfl ?_
  intro k hk
  interval_cases k
  · exact ⟨rfl, rfl⟩
  · rw [show steps (fun _ => (0 : ℚ)) (fun _ => 0) cs5 1 = tick 0 0 cs5 from rfl]
    refine ⟨by rw [tick_started]; rfl, ?_⟩
    refine tick_gameOver_false 0 0 cs5 ⟨rfl, rfl⟩ ?_ ?_
    · unfold outOfBounds CANVAS_H
      have : (birdStep cs5.bird).y = 501/2 := by
        rw [birdStep_y]
        norm_num [cs5, birdInit, GRAVITY]
      rw [this]
      norm_num
    · rw [show cs5.frame + 1 = 1 from rfl, pushPipes_nospawn 0 _ (by norm_num),
        show cs5.pipes = [] from rfl, movePipes_nil]
      intro p hp
      simp at hp

/-- C10: on a playing tick where the collision condition holds, the
scoring pass still runs: if some (post-move) pipe lies in the scoring
window, the score still increases even though the session transitions
to GameOver on this very tick. -/
theorem C10_scoring_runs_after_collision (rho : ℚ) (rid : ℕ) (s : GameState)
    (h1 : isPlaying s) (h2 : collisionNow rho s)
    (h3 : ∃ p ∈ movePipes (pushPipes (s.frame + 1) rho s.pipes), scoreWin p.x) :
    (tick rho rid s).gameOver = true ∧ s.score < (tick rho rid s).score := by
  constructor
  · rw [tick_gameOver_iff rho rid s h1]
    exact h2
  · rw [tick_score rho rid s h1]
    rcases h3 with ⟨p, hp, hw⟩
    have hpos : 0 < countWin (movePipes (pushPipes (s.frame + 1) rho s.pipes)) := by
      unfold countWin
      rw [List.length_pos]
      intro hnil
      have hmem : p ∈ (movePipes (pushPipes (s.frame + 1) rho s.pipes)).filter
          (fun q => decide (scoreWin q.x)) :=
        List.mem_filter.mpr ⟨hp, by simpa using hw⟩
      rw [hnil] at hmem
      simp at hmem
    omega

/-- C10, instantiated at `cs10`: the bird exits the canvas while the
pipe moves to `x = -4`, inside the window; the tick ends the session
and still scores. -/
theorem C10_scoring_runs_after_collision_witness :
    (tick 0 0 cs10).gameOver = true ∧ cs10.score < (tick 0 0 cs10).score := by
  have hpipes : movePipes (pushPipes (cs10.frame + 1) 0 cs10.pipes) = [⟨-4, 175⟩] := by
    rw [show cs10.frame + 1 = 1 from rfl, pushPipes_nospawn 0 _ (by norm_num),
      show cs10.pipes = [⟨-1, 175⟩] from rfl,
      movePipes_cons_keep [] (by unfold PIPE_WIDTH; norm_num), movePipes_nil]
    unfold PIPE_SPEED
    norm_num
  have hy : (birdStep cs10.bird).y = 501 := by
    rw [birdStep_y]
    norm_num [cs10, GRAVITY]
  refine C10_scoring_runs_after_collision 0 0 cs10 ⟨rfl, rfl⟩ ?_ ?_
  · left
    rw [hy]
    unfold outOfBounds CANVAS_H
    right
    norm_num
  · rw [hpipes]
    refine ⟨⟨-4, 175⟩, by simp, ?_⟩
    unfold scoreWin PIPE_WIDTH
    norm_num

/-! ### Claim C9: spawned pipes fit the playfield -/

theorem tick_bird (rho : ℚ) (rid : ℕ) (s : GameState) (h : isPlaying s) :
    (tick rho rid s).bird = birdStep s.bird := by
  rw [tick_playing rho rid s h]

/-- C9: in every reachable state, every pipe of the list has a
top-segment height of at least 50 whose gap band ends at most 50 above
the canvas bottom, for any admissible random draw. -/
theorem C9_pipe_gap_fits (s : GameState) (h : Reachable s) :
    ∀ p ∈ s.pipes, 50 ≤ p.topHeight ∧ p.topHeight + PIPE_GAP ≤ CANVAS_H - 50 := by
  induction h with
  | init hs st =>
    intro p hp
    simp [initState] at hp
  | step rho rid s h0 h1 hr ih =>
    intro p hp
    by_cases hpl : isPlaying s
    · rw [tick_pipes rho rid s hpl] at hp
      rcases mem_movePipes.mp hp with ⟨r, hr2, _, rfl⟩
      rcases mem_pushPipes_elim hr2 with h3 | h3
      · exact ih r h3
      · rw [h3]
        unfold spawnHeight CANVAS_H PIPE_GAP
        dsimp only
        constructor
        · nlinarith
        · nlinarith
    · rw [tick_not_playing rho rid s hpl] at hp
      exact ih p hp
  | flap s h0 ih =>
    intro p hp
    rw [jump_pipes] at hp
    split at hp
    · simp at hp
    · exact ih p hp
  | reset s h0 ih =>
    intro p hp
    rw [resetGame_def] at hp
    simp at hp

/-- C9, instantiated: the pipe spawned two ticks into a session with
`Math.random() = 1/2` sits at `topHeight = 175`, inside the bounds. -/
theorem C9_pipe_gap_fits_witness :
    50 ≤ (Pipe.mk 797 175).topHeight ∧
    (Pipe.mk 797 175).topHeight + PIPE_GAP ≤ CANVAS_H - 50 := by
  have h0 : isPlaying (jump (initState 0 none)) := ⟨rfl, rfl⟩
  have ha_started : cs9a.gameStarted = true := by
    unfold cs9a
    rw [tick_started]
    exact h0.1
  have ha_over : cs9a.gameOver = false := by
    unfold cs9a
    refine tick_gameOver_false 0 99 _ h0 ?_ ?_
    · rw [birdStep_y, jump_initState]
      unfold outOfBounds CANVAS_H JUMP_FORCE GRAVITY
      dsimp only
      norm_num
    · rw [jump_initState]
      dsimp only
      rw [pushPipes_nospawn 0 _ (by norm_num), movePipes_nil]
      intro p hp
      simp at hp
  have ha_frame : cs9a.frame = 99 := by
    unfold cs9a
    rw [tick_frame]
  have ha_pipes : cs9a.pipes = [] := by
    unfold cs9a
    rw [tick_pipes 0 99 _ h0, jump_initState]
    dsimp only
    rw [pushPipes_nospawn 0 _ (by norm_num), movePipes_nil]
  have hb_pipes : cs9b.pipes = [⟨797, 175⟩] := by
    unfold cs9b
    rw [tick_pipes _ _ _ ⟨ha_started, ha_over⟩, ha_frame, ha_pipes]
    rw [pushPipes_spawn _ _ (by norm_num), List.nil_append]
    rw [movePipes_cons_keep [] (by unfold CANVAS_W PIPE_WIDTH; norm_num), movePipes_nil]
    unfold CANVAS_W PIPE_SPEED spawnHeight CANVAS_H PIPE_GAP
    norm_num
  have hreach : Reachable cs9b :=
    Reachable.step (1/2) 0 cs9a
      (Reachable.step 0 99 (jump (initState 0 none))
        (Reachable.flap _ (Reachable.init 0 none)) (le_refl 0) (by norm_num))
      (by norm_num) (by norm_num)
  exact C9_pipe_gap_fits cs9b hreach ⟨797, 175⟩ (by rw [hb_pipes]; simp)

/-! ### Claim C1: the collision condition -/

/-- C1 counterexample: in the playing state `cs1` the tick leaves the
bird at `y = 10`, fully inside the top segment of the pipe that moved
to `x = 59` (gap band `[50, 200]`, horizontal overlap holds), so the
specification's condition demands GameOver; the bird is inside the
canvas, and the code detects nothing: the tick stays in play. -/
theorem C1_counterexample :
    isPlaying cs1 ∧
    (⟨59, 50⟩ : Pipe) ∈ (tick 0 0 cs1).pipes ∧
    specPipeCollision ⟨59, 50⟩ ((tick 0 0 cs1).bird.y) ∧
    ¬ outOfBounds ((tick 0 0 cs1).bird.y) ∧
    (tick 0 0 cs1).gameOver = false := by
  have hpl : isPlaying cs1 := ⟨rfl, rfl⟩
  have hpipes : movePipes (pushPipes (cs1.frame + 1) 0 cs1.pipes) = [⟨59, 50⟩] := by
    rw [show cs1.frame + 1 = 1 from rfl, pushPipes_nospawn 0 _ (by norm_num),
      show cs1.pipes = [⟨62, 50⟩] from rfl,
      movePipes_cons_keep [] (by unfold PIPE_WIDTH; norm_num), movePipes_nil]
    unfold PIPE_SPEED
    norm_num
  have hy : (tick 0 0 cs1).bird.y = 10 := by
    rw [tick_bird 0 0 cs1 hpl, birdStep_y]
    norm_num [cs1, GRAVITY]
  refine ⟨hpl, ?_, ?_, ?_, ?_⟩
  · rw [tick_pipes 0 0 cs1 hpl, hpipes]
    simp
  · rw [hy]
    unfold specPipeCollision BIRD_WIDTH BIRD_X PIPE_WIDTH PIPE_GAP BIRD_HEIGHT
    dsimp only
    norm_num
  · rw [hy]
    unfold outOfBounds CANVAS_H
    norm_num
  · refine tick_gameOver_false 0 0 cs1 hpl ?_ ?_
    · rw [show (birdStep cs1.bird).y = 10 from by rw [birdStep_y]; norm_num [cs1, GRAVITY]]
      unfold outOfBounds CANVAS_H
      norm_num
    · rw [hpipes]
      intro p hp
      rw [List.mem_singleton] at hp
      subst hp
      rw [show (birdStep cs1.bird).y = 10 from by rw [birdStep_y]; norm_num [cs1, GRAVITY]]
      unfold pipeHit BIRD_HEIGHT
      dsimp only
      rintro ⟨-, h2, -⟩
      norm_num at h2

/-- C1 as amended: a playing tick ends in GameOver exactly when the
updated bird position leaves the canvas, or some (post-move) pipe
horizontally overlapping the bird has the bird straddling an edge of
its solid region: the bird's top edge lies strictly within
`BIRD_HEIGHT` above the top segment's lower edge or strictly within
`BIRD_HEIGHT` below the gap's lower edge.  A bird lying entirely
inside a pipe's solid region is not detected. -/
theorem C1_amended (rho : ℚ) (rid : ℕ) (s : GameState) (h : isPlaying s) :
    (tick rho rid s).gameOver = true ↔
      (outOfBounds (birdStep s.bird).y ∨
       ∃ p ∈ movePipes (pushPipes (s.frame + 1) rho s.pipes),
         straddleHit p (birdStep s.bird).y) := by
  rw [tick_gameOver_iff rho rid s h]
  constructor
  · rintro (h1 | ⟨p, hp, h2⟩)
    · exact Or.inl h1
    · exact Or.inr ⟨p, hp, (pipeHit_iff_straddle p _).mp h2⟩
  · rintro (h1 | ⟨p, hp, h2⟩)
    · exact Or.inl h1
    · exact Or.inr ⟨p, hp, (pipeHit_iff_straddle p _).mpr h2⟩

/-- C1 amended, instantiated at `cs1`. -/
theorem C1_amended_witness :
    (tick 0 0 cs1).gameOver = true ↔
      (outOfBounds (birdStep cs1.bird).y ∨
       ∃ p ∈ movePipes (pushPipes (cs1.frame + 1) 0 cs1.pipes),
         straddleHit p (birdStep cs1.bird).y) :=
  C1_amended 0 0 cs1 ⟨rfl, rfl⟩

/-! ### Claim C6: the no-input session -/

/-- C6 counterexample: the session-starting jump sets the velocity to
`JUMP_FORCE = -8`, so on the very first tick — long before the bird
exceeds the canvas height — its vertical position strictly decreases
(250 to 242.5), refuting "strictly increases on every tick". -/
theorem C6_counterexample :
    (steps (fun _ => (0 : ℚ)) (fun _ => 0) freeFallStart 1).bird.y <
      freeFallStart.bird.y ∧
    freeFallStart.bird.y ≤ CANVAS_H ∧
    (steps (fun _ => (0 : ℚ)) (fun _ => 0) freeFallStart 1).gameOver = false := by
  unfold freeFallStart
  obtain ⟨-, h2, -, -, -, -, h7, -⟩ :=
    fall_inv 0 none (fun _ => 0) (fun _ => 0) 1 (by norm_num)
  refine ⟨?_, ?_, ?_⟩
  · rw [h7, jump_initState]
    unfold fallY JUMP_FORCE
    dsimp only
    norm_num
  · rw [jump_initState]
    unfold CANVAS_H
    dsimp only
    norm_num
  · rw [h2]
    simp

/-- C6 as amended: in the no-input session the bird first rises for 15
ticks (position strictly decreasing), holds its position on tick 16,
then strictly descends on every tick through tick 51; through tick 50
the session stays in play with the bird inside the canvas; on tick 51
the position first exceeds the canvas height and the session is in
GameOver from then on — a single transition. -/
theorem C6_amended (rho : ℕ → ℚ) (rid : ℕ → ℕ) :
    (∀ k : ℕ, k < 15 →
      (steps rho rid freeFallStart (k + 1)).bird.y <
        (steps rho rid freeFallStart k).bird.y) ∧
    ((steps rho rid freeFallStart 16).bird.y =
      (steps rho rid freeFallStart 15).bird.y) ∧
    (∀ k : ℕ, 16 ≤ k → k ≤ 50 →
      (steps rho rid freeFallStart k).bird.y <
        (steps rho rid freeFallStart (k + 1)).bird.y) ∧
    (∀ k : ℕ, k ≤ 50 → (steps rho rid freeFallStart k).gameOver = false ∧
      (steps rho rid freeFallStart k).bird.y ≤ CANVAS_H) ∧
    ((steps rho rid freeFallStart 51).bird.y > CANVAS_H) ∧
    (∀ j : ℕ, 51 ≤ j → (steps rho rid freeFallStart j).gameOver = true) := by
  unfold freeFallStart
  have Y : ∀ k : ℕ, k ≤ 51 →
      (steps rho rid (jump (initState 0 none)) k).bird.y = fallY k :=
    fun k hk => (fall_inv 0 none rho rid k hk).2.2.2.2.2.2.1
  have OV : ∀ k : ℕ, k ≤ 51 →
      (steps rho rid (jump (initState 0 none)) k).gameOver = decide (k = 51) :=
    fun k hk => (fall_inv 0 none rho rid k hk).2.1
  refine ⟨?_, ?_, ?_, ?_, ?_, ?_⟩
  · intro k hk
    rw [Y (k + 1) (by omega), Y k (by omega)]
    exact fallY_down k hk
  · rw [Y 16 (by norm_num), Y 15 (by norm_num)]
    exact fallY_flat
  · intro k h16 h50
    rw [Y k (by omega), Y (k + 1) (by omega)]
    exact fallY_up k h16
  · intro k hk
    constructor
    · rw [OV k (by omega)]
      simp only [decide_eq_false_iff_not]
      omega
    · rw [Y k (by omega)]
      unfold CANVAS_H
      exact (fallY_bounds k hk).2
  · rw [Y 51 le_rfl, fallY_51]
    unfold CANVAS_H
    norm_num
  · intro j hj
    induction j, hj using Nat.le_induction with
    | base =>
      rw [OV 51 le_rfl]
      simp
    | succ j hj ih =>
      rw [show steps rho rid (jump (initState 0 none)) (j + 1) =
        tick (rho j) (rid j) (steps rho rid (jump (initState 0 none)) j) from rfl]
      exact tick_gameOver_stable _ _ ih

/-- C6 amended, instantiated: on tick 4 of the no-input session the
bird is still rising. -/
theorem C6_amended_witness :
    (steps (fun _ => (0 : ℚ)) (fun _ => 0) freeFallStart 4).bird.y <
      (steps (fun _ => (0 : ℚ)) (fun _ => 0) freeFallStart 3).bird.y :=
  (C6_amended (fun _ => 0) (fun _ => 0)).1 3 (by norm_num)

/-! ### Claim C4: the high score -/

/-- C4 counterexample: starting from a stored (and in-memory) high
score of `-1` — exactly what a stored string `"-1"` initializes — the
no-input session completes with final score 0, yet the high score
stays `-1` instead of `max (-1) 0 = 0`. -/
theorem C4_counterexample :
    (initState (-1) (some (-1))).gameStarted = false ∧
    (steps (fun _ => (0 : ℚ)) (fun _ => 0) (jump (initState (-1) (some (-1)))) 51).gameOver
      = true ∧
    (steps (fun _ => (0 : ℚ)) (fun _ => 0) (jump (initState (-1) (some (-1)))) 51).score
      = 0 ∧
    (steps (fun _ => (0 : ℚ)) (fun _ => 0) (jump (initState (-1) (some (-1)))) 51).highScore
      = -1 ∧
    (steps (fun _ => (0 : ℚ)) (fun _ => 0) (jump (initState (-1) (some (-1)))) 51).highScore
      ≠ max (initState (-1) (some (-1))).highScore
          (((steps (fun _ => (0 : ℚ)) (fun _ => 0)
              (jump (initState (-1) (some (-1)))) 51).score : ℕ) : ℤ) := by
  obtain ⟨-, h2, h3, h4, -, -, -, -⟩ :=
    fall_inv (-1) (some (-1)) (fun _ => 0) (fun _ => 0) 51 le_rfl
  refine ⟨rfl, by rw [h2]; simp, h3, h4, ?_⟩
  rw [h4, h3]
  rw [show (initState (-1) (some (-1))).highScore = -1 from rfl]
  rw [Nat.cast_zero, max_eq_right (by norm_num : (-1 : ℤ) ≤ 0)]
  norm_num

/-- C4 as amended: the in-memory high score never decreases under any
tick, jump or reset; after any session — the starting jump from an
unstarted state followed by any interleaving of ticks and mid-session
jumps, scoring or not, up to and beyond its GameOver — whose initial
high score is non-negative (negative values can only come from a
negative stored string), the high score equals the maximum of its
pre-session value and the current (hence final) score; and on every
tick that changes the high score, the value written to storage equals
the new in-memory high score. -/
theorem C4_amended :
    (∀ (rho : ℚ) (rid : ℕ) (s : GameState), s.highScore ≤ (tick rho rid s).highScore) ∧
    (∀ s : GameState, (jump s).highScore = s.highScore) ∧
    (∀ s : GameState, (resetGame s).highScore = s.highScore) ∧
    (∀ (s : GameState) (l : List Ev), s.gameStarted = false → 0 ≤ s.highScore →
      (runE (jump s) l).highScore = max s.highScore ((runE (jump s) l).score : ℤ)) ∧
    (∀ (rho : ℚ) (rid : ℕ) (s : GameState),
      (tick rho rid s).highScore ≠ s.highScore →
      (tick rho rid s).stored = some ((tick rho rid s).highScore)) := by
  refine ⟨?_, jump_highScore, fun s => rfl, ?_, ?_⟩
  · intro rho rid s
    rcases tick_highScore_dichotomy rho rid s with ⟨h1, -⟩ | ⟨h1, -, -⟩
    · rw [h1]
    · exact le_of_lt h1
  · intro s l hns hnn
    have hj := jump_score_of_not_started hns
    have hstart : (jump s).highScore = max s.highScore (((jump s).score : ℕ) : ℤ) := by
      rw [jump_highScore, hj.1, Nat.cast_zero]
      exact (max_eq_left hnn).symm
    suffices h : ∀ (l : List Ev) (t : GameState),
        t.gameStarted = true →
        t.highScore = max s.highScore ((t.score : ℤ)) →
        (runE t l).highScore = max s.highScore ((runE t l).score : ℤ) by
      exact h l (jump s) hj.2.1 hstart
    intro l
    induction l with
    | nil => intro t _ ht; exact ht
    | cons e l ih =>
      intro t hts ht
      cases e with
      | tick rho rid =>
        rw [show runE t (Ev.tick rho rid :: l) = runE (tick rho rid t) l from rfl]
        exact ih (tick rho rid t) (by rw [tick_started]; exact hts)
          (tick_session_inv s.highScore rho rid t ht)
      | flap =>
        rw [show runE t (Ev.flap :: l) = runE (jump t) l from rfl]
        have hji := jump_started_inv hts
        refine ih (jump t) hji.1 ?_
        rw [hji.2.2, hji.2.1]
        exact ht
  · intro rho rid s hne
    rcases tick_highScore_dichotomy rho rid s with ⟨h1, -⟩ | ⟨-, h2, -⟩
    · exact absurd h1 hne
    · exact h2

/-- C4 amended, instantiated: a session trace holding a mid-session
jump, a spawning tick and a further tick keeps the high score at the
`max` of its pre-session value and the running score, and the tick on
`cs4` that raises the high score to 1 writes exactly 1 to storage. -/
theorem C4_amended_witness :
    ((runE (jump (initState 0 none))
        [Ev.flap, Ev.tick 0 99, Ev.tick (1/2) 0]).highScore =
      max (initState 0 none).highScore
        ((runE (jump (initState 0 none))
          [Ev.flap, Ev.tick 0 99, Ev.tick (1/2) 0]).score : ℤ)) ∧
    ((tick 0 0 cs4).stored = some ((tick 0 0 cs4).highScore)) := by
  constructor
  · exact C4_amended.2.2.2.1 (initState 0 none)
      [Ev.flap, Ev.tick 0 99, Ev.tick (1/2) 0] rfl (le_refl 0)
  · refine C4_amended.2.2.2.2 0 0 cs4 ?_
    have hpipes : movePipes (pushPipes (cs4.frame + 1) 0 cs4.pipes) = [⟨-4, 175⟩] := by
      rw [show cs4.frame + 1 = 1 from rfl, pushPipes_nospawn 0 _ (by norm_num),
        show cs4.pipes = [⟨-1, 175⟩] from rfl,
        movePipes_cons_keep [] (by unfold PIPE_WIDTH; norm_num), movePipes_nil]
      unfold PIPE_SPEED
      norm_num
    have hwin : scoreWin ((-4 : ℚ)) := by
      unfold scoreWin PIPE_WIDTH
      norm_num
    have hcw : countWin (movePipes (pushPipes (cs4.frame + 1) 0 cs4.pipes)) = 1 := by
      rw [hpipes, countWin_cons_pos [] hwin, countWin_nil]
    have hhi := scorePass_high cs4.highScore
      (movePipes (pushPipes (cs4.frame + 1) 0 cs4.pipes))
      (cs4.score, cs4.highScore, cs4.stored) (by rw [hcw]) (by rw [hcw]; norm_num [cs4])
    rw [tick_playing 0 0 cs4 ⟨rfl, rfl⟩]
    show (scorePass _ _ _).2.1 ≠ cs4.highScore
    rw [congrArg Prod.fst hhi, hcw]
    norm_num [cs4]

end Flappy
